import Mathlib

/-!
Shallow embedding of src/server.py (nba-props-api): the background refresh
cache for injuries and live games, the TTL pull cache for per-player game
logs, and the prop analysis pipeline, together with theorems settling the
design-specification claims C1 to C10.

Modelling conventions: Python floats are modelled as rationals, timestamps
(datetime.now values) as rationals, Python strings as Lean strings, and the
lock-guarded critical sections of the two refresh threads as atomic steps of
an explicit transition system (the source guards every cache read and write
with a single shared Lock, so an interleaving can only switch threads at
critical-section granularity).  Upstream providers (nba_api, ESPN) are
oracles passed in as parameters.  Fallible Python code is modelled with an
explicit result type.
-/

namespace NbaProps

set_option maxRecDepth 8000

/-- Result type for fallible Python code: a normal value or a raised
exception carrying its message. -/
inductive Res (α : Type) where
  | ok (val : α)
  | err (msg : String)
deriving DecidableEq

/-- Characters of a string lowercased, modelling Python str.lower. -/
def lowerStr (s : String) : String := String.mk (s.data.map Char.toLower)

/-- Python substring test, modelling needle in hay on strings. -/
def strSub (needle hay : String) : Bool := decide (needle.data <:+: hay.data)

/-- Python slice s[:n]. -/
def strTake (n : ℕ) (s : String) : String := String.mk (s.data.take n)

/-- Floor of a rational, used to model Python rounding. -/
def pyFloor (q : ℚ) : ℤ := Int.fdiv q.num (q.den : ℤ)

/-- Python round to an integer: round half to even. -/
def pyRound (q : ℚ) : ℤ :=
  let f : ℤ := pyFloor q
  let r : ℚ := q - (f : ℚ)
  if r < 1/2 then f
  else if 1/2 < r then f + 1
  else if f % 2 = 0 then f else f + 1

/-- Python round(x, 1). -/
def round1 (q : ℚ) : ℚ := (pyRound (q * 10) : ℚ) / 10

/-- Sum of a list of rationals. -/
def qsum (l : List ℚ) : ℚ := l.foldr (· + ·) 0

/-- Arithmetic mean, as pandas Series.mean over a nonempty column. -/
def mean (l : List ℚ) : ℚ := qsum l / (l.length : ℚ)

/-- Insertion into a sorted list of rationals. -/
def insertQ (x : ℚ) : List ℚ → List ℚ
  | [] => [x]
  | y :: ys => if x ≤ y then x :: y :: ys else y :: insertQ x ys

/-- Insertion sort on rationals, used for the median. -/
def sortQ : List ℚ → List ℚ
  | [] => []
  | x :: xs => insertQ x (sortQ xs)

/-- Median as pandas Series.median: middle element of the sorted values, or
the mean of the two middle elements when the count is even. -/
def medianQ (l : List ℚ) : ℚ :=
  let s := sortQ l
  let n := s.length
  if n = 0 then 0
  else if n % 2 = 1 then s.getD (n / 2) 0
  else (s.getD (n / 2 - 1) 0 + s.getD (n / 2) 0) / 2

/-- One row of a player game log (the per-game columns the server reads). -/
structure GameRec where
  pts : ℚ
  reb : ℚ
  ast : ℚ
  fg3m : ℚ
  stl : ℚ
  blk : ℚ
  tov : ℚ
  matchup : String
deriving DecidableEq

/-- The stat columns the analysis endpoint can select. -/
inductive StatCol where
  | PTS | REB | AST | FG3M | STL | BLK | TOV
deriving DecidableEq

/-- Reading a stat column out of a game row. -/
def colVal : StatCol → GameRec → ℚ
  | .PTS, g => g.pts
  | .REB, g => g.reb
  | .AST, g => g.ast
  | .FG3M, g => g.fg3m
  | .STL, g => g.stl
  | .BLK, g => g.blk
  | .TOV, g => g.tov

/-- stat_map.get(stat, PTS) of the source: synonyms for each column, with
unknown keywords defaulting to points.  The argument is already lowercased
by the caller, as in the source. -/
def statMap (s : String) : StatCol :=
  if s = "pts" ∨ s = "points" then .PTS
  else if s = "reb" ∨ s = "rebounds" then .REB
  else if s = "ast" ∨ s = "assists" then .AST
  else if s = "fg3m" ∨ s = "3pm" ∨ s = "threes" ∨ s = "3pt" then .FG3M
  else if s = "stl" ∨ s = "steals" then .STL
  else if s = "blk" ∨ s = "blocks" then .BLK
  else if s = "tov" ∨ s = "turnovers" ∨ s = "turnover" then .TOV
  else .PTS

/-- One entry of the ALL_PLAYERS directory loaded at startup. -/
structure NamedId where
  pid : ℕ
  fullName : String
deriving DecidableEq

/-- find_player of the source: first directory entry whose lowercased full
name contains the lowercased fragment.  The source signals not-found with a
None pair that callers test by truthiness (a player id of 0 would be
conflated with not-found; real ids are positive), modelled as Option. -/
def findPlayer (dirx : List NamedId) (name : String) : Option (ℕ × String) :=
  match dirx.find? (fun p => strSub (lowerStr name) (lowerStr p.fullName)) with
  | some p => some (p.pid, p.fullName)
  | none => none

/-! ### Derived per-prop metrics (analyze, lines 456 to 477 of the source) -/

/-- values = df[col].tolist(). -/
def valuesOf (c : StatCol) (log : List GameRec) : List ℚ := log.map (colVal c)

/-- avg = df[col].mean(). -/
def avgOf (c : StatCol) (log : List GameRec) : ℚ := mean (valuesOf c log)

/-- edge = avg - line. -/
def edgeOf (c : StatCol) (lineV : ℚ) (log : List GameRec) : ℚ :=
  avgOf c log - lineV

/-- over_hits = number of games whose stat value strictly exceeds the line. -/
def overHits (c : StatCol) (lineV : ℚ) (log : List GameRec) : ℕ :=
  ((valuesOf c log).filter (fun v => lineV < v)).length

/-- hit_rate = over_hits / games * 100 when there are games, else 0. -/
def hitRateOf (c : StatCol) (lineV : ℚ) (log : List GameRec) : ℚ :=
  if 0 < log.length then
    (overHits c lineV log : ℚ) / (log.length : ℚ) * 100
  else 0

/-- last5 = values[:5] (the whole list when shorter than 5). -/
def last5Of (c : StatCol) (log : List GameRec) : List ℚ :=
  (valuesOf c log).take 5

/-- last5_avg: mean of the first five values, defaulting to avg when empty. -/
def last5AvgOf (c : StatCol) (log : List GameRec) : ℚ :=
  if last5Of c log = [] then avgOf c log
  else qsum (last5Of c log) / ((last5Of c log).length : ℚ)

/-- last5_hits: values among the first five strictly above the line. -/
def last5HitsOf (c : StatCol) (lineV : ℚ) (log : List GameRec) : ℕ :=
  ((last5Of c log).filter (fun v => lineV < v)).length

/-- Matchup string denotes a home game: the source tests
MATCHUP.str.contains with the pattern vs. (matched literally here; log
matchup strings contain it literally). -/
def isHomeGame (g : GameRec) : Bool := strSub "vs." g.matchup

/-- Matchup string denotes an away game (contains the at sign). -/
def isAwayGame (g : GameRec) : Bool := strSub "@" g.matchup

/-- home_avg: mean over home games, defaulting to avg when there are none. -/
def homeAvgOf (c : StatCol) (log : List GameRec) : ℚ :=
  let hg := log.filter isHomeGame
  if hg = [] then avgOf c log else mean (valuesOf c hg)

/-- away_avg: mean over away games, defaulting to avg when there are none. -/
def awayAvgOf (c : StatCol) (log : List GameRec) : ℚ :=
  let ag := log.filter isAwayGame
  if ag = [] then avgOf c log else mean (valuesOf c ag)

/-- Sample variance sum((x - avg)^2) / (n - 1), the quantity whose float
square root the source reports as std_dev. -/
def sampleVar (c : StatCol) (log : List GameRec) : ℚ :=
  qsum ((valuesOf c log).map (fun v => (v - avgOf c log) ^ 2)) /
    ((log.length : ℚ) - 1)

/-- std_dev of the source: the float square root of the sample variance when
there are at least 2 games, else the heuristic proxy avg * 0.18.  The square
root of a rational is irrational in general, so the value under the root is
kept symbolically; no claim depends on the numeric std_dev. -/
inductive StdSpec where
  | sample (variance : ℚ)
  | proxy (q : ℚ)
deriving DecidableEq

/-- The std_dev branch of the source (len(df) > 1 picks the sample std). -/
def stdSpecOf (c : StatCol) (log : List GameRec) : StdSpec :=
  if 1 < log.length then .sample (sampleVar c log)
  else .proxy (avgOf c log * (18 / 100))

/-! ### Confidence score (analyze, lines 479 to 490 of the source) -/

/-- The confidence accumulation of the source, applied to the derived
inputs, before integer rounding: base 50, clamped edge weight, games
count adjustment, edge magnitude bonuses, hit-rate adjustment, last-five
adjustment, final clamp to the interval from 5 to 95. -/
def confidenceScore (edge : ℚ) (games : ℕ) (hitRate : ℚ)
    (last5Hits : ℕ) : ℚ :=
  let c1 : ℚ := 50 + min 25 (max (-25) (edge * 4))
  let c2 : ℚ := if 20 ≤ games then c1 + 10 else if games < 15 then c1 - 5 else c1
  let c3 : ℚ := if 5 ≤ |edge| then c2 + 8 else c2
  let c4 : ℚ := if 7 ≤ |edge| then c3 + 7 else c3
  let c5 : ℚ := if 70 ≤ hitRate then c4 + 5 else if hitRate ≤ 30 then c4 - 5 else c4
  let c6 : ℚ := if 4 ≤ last5Hits then c5 + 3 else if last5Hits ≤ 1 then c5 - 3 else c5
  max 5 (min 95 c6)

/-- The result_data record built for an analyzed prop (rounded display
values, as in the source; confidence is the rounded integer). -/
structure ResultData where
  name : String
  avg : ℚ
  median : ℚ
  edge : ℚ
  games : ℕ
  hitRate : ℚ
  last5Avg : ℚ
  last5Hits : ℕ
  homeAvg : ℚ
  awayAvg : ℚ
  stdDev : StdSpec
  confidence : ℤ
deriving DecidableEq

/-- Assembling result_data from a nonempty game log, the line value and the
requested stat keyword (statS is the raw request string; the source
lowercases it before the stat_map lookup). -/
def mkResultData (fullName statS : String) (lineV : ℚ)
    (log : List GameRec) : ResultData :=
  let c := statMap (lowerStr statS)
  { name := fullName
    avg := round1 (avgOf c log)
    median := round1 (medianQ (valuesOf c log))
    edge := round1 (edgeOf c lineV log)
    games := log.length
    hitRate := round1 (hitRateOf c lineV log)
    last5Avg := round1 (last5AvgOf c log)
    last5Hits := last5HitsOf c lineV log
    homeAvg := round1 (homeAvgOf c log)
    awayAvg := round1 (awayAvgOf c log)
    stdDev := stdSpecOf c log
    confidence := pyRound (confidenceScore (edgeOf c lineV log) log.length
      (hitRateOf c lineV log) (last5HitsOf c lineV log)) }

/-! ### Prop requests and results (analyze, lines 430 to 524) -/

/-- The line field of a prop request as received in the JSON body: absent
(p.get supplies the default 0), a number, or a value whose float conversion
raises with the given message. -/
inductive LineField where
  | absent
  | num (q : ℚ)
  | malformed (msg : String)
deriving DecidableEq

/-- One prop request; name and stat are absent or strings, with the p.get
defaults applied inside the pipeline as in the source. -/
structure PropReq where
  name : Option String
  line : LineField
  stat : Option String
deriving DecidableEq

/-- float(p.get(line, 0)): the only step of the per-prop pipeline outside
the per-prop try block, so its failure escapes to the endpoint handler. -/
def parseLine : LineField → Res ℚ
  | .absent => .ok 0
  | .num q => .ok q
  | .malformed m => .err m

/-- Whether the line field of a request converts cleanly to a float. -/
def lineOk (p : PropReq) : Bool :=
  match parseLine p.line with
  | .ok _ => true
  | .err _ => false

/-- One element of the results list returned by analyze. -/
inductive PropResult where
  | injuredSkip (name : String)
  | notFound (name : String)
  | noGames (fullName : String)
  | errSkip (name : String) (reason : String)
  | analyzed (data : ResultData) (verdict : String)
deriving DecidableEq

/-- One element of the locks list: the result_data spread together with the
line, the raw stat keyword and the direction (the verdict key is added to
result_data only after the spread, so it is absent here, as in the source). -/
structure LockEntry where
  data : ResultData
  line : ℚ
  stat : String
  direction : String
deriving DecidableEq

/-- Outcome of processing a single prop: its results entry, its optional
locks entry, and the player ids fetched upstream on its behalf. -/
structure StepOut where
  res : PropResult
  lock : Option LockEntry
  calls : List ℕ
deriving DecidableEq

/-- The injury filter condition of the source: some injured name contains
the lowercased prop name, or is contained in it. -/
def injCond (injured : List String) (name : String) : Bool :=
  injured.any fun inj =>
    strSub (lowerStr name) inj || strSub inj (lowerStr name)

/-- Processing of one prop of the batch: line conversion (fallible at the
batch level), injury filter, directory resolution, upstream fetch (the
analysis path always fetches; it does not consult the player cache), metric
derivation, confidence and verdict.  Per-prop failures inside the inner try
block (here: the fetch oracle) become SKIP entries with the reason text
truncated to 50 characters. -/
def processProp (injured : List String) (dirx : List NamedId)
    (fetch : ℕ → Res (List GameRec)) (p : PropReq) : Res StepOut :=
  let name := p.name.getD ""
  match parseLine p.line with
  | .err m => .err m
  | .ok lineV =>
    let statS := p.stat.getD "pts"
    if injCond injured name then
      .ok ⟨.injuredSkip name, none, []⟩
    else
      match findPlayer dirx name with
      | none => .ok ⟨.notFound name, none, []⟩
      | some (pid, fullName) =>
        match fetch pid with
        | .err e => .ok ⟨.errSkip name (strTake 50 e), none, [pid]⟩
        | .ok log =>
          if log = [] then
            .ok ⟨.noGames fullName, none, [pid]⟩
          else
            let c := statMap (lowerStr statS)
            let conf := confidenceScore (edgeOf c lineV log) log.length
              (hitRateOf c lineV log) (last5HitsOf c lineV log)
            let direction := if 0 < edgeOf c lineV log then "OVER" else "UNDER"
            let rd := mkResultData fullName statS lineV log
            if 85 ≤ conf ∧ 15 ≤ log.length then
              .ok ⟨.analyzed rd ("🔒 LOCK " ++ direction),
                some ⟨rd, lineV, statS, direction⟩, [pid]⟩
            else if 75 ≤ conf then
              .ok ⟨.analyzed rd ("✅ GOOD " ++ direction), none, [pid]⟩
            else
              .ok ⟨.analyzed rd "SKIP", none, [pid]⟩

/-- The per-prop loop of analyze: results accumulate in input order, lock
entries in discovery order, and a failure escaping a per-prop step (the
line float conversion) aborts the whole batch, discarding everything. -/
def analyzeList (injured : List String) (dirx : List NamedId)
    (fetch : ℕ → Res (List GameRec)) :
    List PropReq → Res (List PropResult × List LockEntry × List ℕ)
  | [] => .ok ([], [], [])
  | p :: ps =>
    match processProp injured dirx fetch p with
    | .err e => .err e
    | .ok s =>
      match analyzeList injured dirx fetch ps with
      | .err e => .err e
      | .ok (rs, ls, cs) =>
        .ok (s.res :: rs,
          (match s.lock with | some l => l :: ls | none => ls),
          s.calls ++ cs)

/-! ### The cache (CACHE dictionary, lines 36 to 47 of the source) -/

/-- One row of the injuries-by-team mapping. -/
structure InjRec where
  name : String
  status : String
  reason : String
deriving DecidableEq

/-- data of the injuries cache entry. -/
structure InjData where
  teams : List (String × List InjRec)
  injuredPlayers : List String
  total : ℕ
deriving DecidableEq

/-- The injuries cache entry: data, updated timestamp, source label. -/
structure InjEntry where
  data : InjData
  updated : Option ℚ
  source : String
deriving DecidableEq

/-- One row of the games snapshot. -/
structure GameRow where
  gameId : String
  homeTeam : String
  awayTeam : String
  homeScore : ℤ
  awayScore : ℤ
  status : String
  startTime : String
  period : ℕ
  gameClock : String
  homeRecord : String
  awayRecord : String
deriving DecidableEq

/-- data of the games cache entry. -/
structure GamesData where
  games : List GameRow
  count : ℕ
  date : String
deriving DecidableEq

/-- The games cache entry; the source never gives it a source label. -/
structure GamesEntry where
  data : GamesData
  updated : Option ℚ
deriving DecidableEq

/-- The per-player pull-cache slot: cached response and fetch timestamp. -/
structure PlayerSummary where
  name : String
  games : ℕ
  pts : ℚ
  reb : ℚ
  ast : ℚ
  fg3m : ℚ
  stl : ℚ
  blk : ℚ
  cachedUntil : ℚ
deriving DecidableEq

/-- CACHE.players slot: data plus the timestamp taken at fetch time. -/
structure PlayerEntry where
  data : PlayerSummary
  timestamp : ℚ
deriving DecidableEq

/-- The whole CACHE dictionary.  The players field is an association list
keyed by player id; assignment conses, lookup takes the first match. -/
structure CacheState where
  injuries : InjEntry
  games : GamesEntry
  players : List (ℕ × PlayerEntry)
deriving DecidableEq

/-- The module-level initial CACHE value. -/
def initialCache : CacheState :=
  { injuries := ⟨⟨[], [], 0⟩, none, "loading..."⟩
    games := ⟨⟨[], 0, ""⟩, none⟩
    players := [] }

/-! ### Background refresh transition system (update_injuries_loop and
update_games_loop).  Each constructor is one lock-guarded critical section
of a refresh cycle; the payload carries what the upstream round trip
produced, with the wall-clock time of the write. -/

/-- One observable refresh cycle outcome. -/
inductive RefreshEvent where
  | injOk (teams : List (String × List InjRec)) (injured : List String) (t : ℚ)
  | injNon200 (code : ℕ)
  | injFail (e : String) (t : ℚ)
  | gamesOk (rows : List GameRow) (d : String) (t : ℚ)
  | gamesFail (e : String)
deriving DecidableEq

/-- The cache write performed by one refresh cycle: a successful injuries
cycle replaces the whole injuries entry; a non-200 response writes nothing;
a failing injuries cycle writes an error entry only when the entry was
never populated, else writes nothing; a successful games cycle replaces the
whole games entry; a failing games cycle writes nothing. -/
def stepRefresh (s : CacheState) : RefreshEvent → CacheState
  | .injOk teams injured t =>
    { s with injuries :=
        ⟨⟨teams, injured, injured.length⟩, some t, "ESPN NBA Injuries (Live)"⟩ }
  | .injNon200 _ => s
  | .injFail e t =>
    if s.injuries.updated = none then
      { s with injuries :=
          ⟨⟨[], [], 0⟩, some t, "ESPN API error: " ++ strTake 30 e⟩ }
    else s
  | .gamesOk rows d t =>
    { s with games := ⟨⟨rows, rows.length, d⟩, some t⟩ }
  | .gamesFail _ => s

/-- Running a sequence of refresh cycles from a state. -/
def runRefresh (s : CacheState) : List RefreshEvent → CacheState
  | [] => s
  | e :: es => runRefresh (stepRefresh s e) es

/-- A reader of the injuries endpoint: the entry copied under the lock. -/
def getInjuriesView (s : CacheState) : InjEntry := s.injuries

/-- A reader of the games endpoints: the entry copied under the lock. -/
def getGamesView (s : CacheState) : GamesEntry := s.games

/-- The complete injuries entry a successful or first-failure cycle
installs; the write is state-independent, so each event determines its
generation. -/
def injGen : RefreshEvent → Option InjEntry
  | .injOk teams injured t =>
    some ⟨⟨teams, injured, injured.length⟩, some t, "ESPN NBA Injuries (Live)"⟩
  | .injFail e t =>
    some ⟨⟨[], [], 0⟩, some t, "ESPN API error: " ++ strTake 30 e⟩
  | _ => none

/-- The complete games entry a successful games cycle installs. -/
def gamesGen : RefreshEvent → Option GamesEntry
  | .gamesOk rows d t => some ⟨⟨rows, rows.length, d⟩, some t⟩
  | _ => none

/-- Whether a trace contains a successful injuries cycle. -/
def hasInjOk (tr : List RefreshEvent) : Bool :=
  tr.any fun ev => match ev with | .injOk _ _ _ => true | _ => false

/-- Whether a trace contains a completed injuries cycle, successful or
failing (non-200 responses write nothing and do not count). -/
def hasInjAttempt (tr : List RefreshEvent) : Bool :=
  tr.any fun ev =>
    match ev with
    | .injOk _ _ _ => true
    | .injFail _ _ => true
    | _ => false

/-- Whether a trace contains a successful games cycle. -/
def hasGamesOk (tr : List RefreshEvent) : Bool :=
  tr.any fun ev => match ev with | .gamesOk _ _ _ => true | _ => false

/-! ### The pull-path player endpoint (get_player, lines 354 to 402) -/

/-- Outcome of one get_player request: the response, the possibly updated
cache state, and the player ids fetched upstream. -/
structure GetPlayerOut where
  resp : Res PlayerSummary
  st : CacheState
  calls : List ℕ
deriving DecidableEq

/-- The player cache TTL in seconds (PLAYER_CACHE_TTL). -/
def PLAYER_CACHE_TTL : ℚ := 300

/-- The response body built from a fetched nonempty game log: rounded
season averages plus the cache expiry stamp. -/
def summarize (fullName : String) (now : ℚ) (log : List GameRec) :
    PlayerSummary :=
  { name := fullName
    games := log.length
    pts := round1 (mean (log.map (·.pts)))
    reb := round1 (mean (log.map (·.reb)))
    ast := round1 (mean (log.map (·.ast)))
    fg3m := round1 (mean (log.map (·.fg3m)))
    stl := round1 (mean (log.map (·.stl)))
    blk := round1 (mean (log.map (·.blk)))
    cachedUntil := now + PLAYER_CACHE_TTL }

/-- The cache-miss tail of get_player: one synchronous upstream fetch; an
empty log is a not-found error; a failure is surfaced unchanged with no
fallback to a stale entry; a success is stored with the read timestamp. -/
def getPlayerFetch (fetch : ℕ → Res (List GameRec)) (now : ℚ)
    (st : CacheState) (pid : ℕ) (fullName : String) : GetPlayerOut :=
  match fetch pid with
  | .err e => ⟨.err e, st, [pid]⟩
  | .ok log =>
    if log = [] then ⟨.err "No games found", st, [pid]⟩
    else
      let summ := summarize fullName now log
      ⟨.ok summ, { st with players := (pid, ⟨summ, now⟩) :: st.players },
        [pid]⟩

/-- get_player: resolve the name, then return the cached summary when the
entry is younger than the TTL, else fetch upstream. -/
def getPlayer (dirx : List NamedId) (fetch : ℕ → Res (List GameRec))
    (now : ℚ) (st : CacheState) (name : String) : GetPlayerOut :=
  match findPlayer dirx name with
  | none => ⟨.err "Player not found", st, []⟩
  | some (pid, fullName) =>
    match st.players.lookup pid with
    | some en =>
      if now - en.timestamp < PLAYER_CACHE_TTL then ⟨.ok en.data, st, []⟩
      else getPlayerFetch fetch now st pid fullName
    | none => getPlayerFetch fetch now st pid fullName

/-! ### The analyze endpoint (lines 408 to 538) -/

/-- The response of a successful analyze call, plus the trace of upstream
fetches it performed. -/
structure AnalyzeOut where
  results : List PropResult
  locks : List LockEntry
  lockCount : ℕ
  injuriesChecked : ℕ
  injurySource : String
  calls : List ℕ
deriving DecidableEq

/-- analyze: copy the injured list and source under the lock, process the
first 15 props, and either return the batch response or, when a per-prop
line conversion escaped, the single error object (discarding every result
already computed).  The player pull cache is neither read nor written. -/
def analyzeProps (dirx : List NamedId) (fetch : ℕ → Res (List GameRec))
    (st : CacheState) (props : List PropReq) : Res AnalyzeOut :=
  let injured := st.injuries.data.injuredPlayers
  match analyzeList injured dirx fetch (props.take 15) with
  | .err e => .err e
  | .ok (rs, ls, cs) =>
    .ok { results := rs, locks := ls, lockCount := ls.length
          injuriesChecked := injured.length
          injurySource := st.injuries.source
          calls := cs }

/-- The upstream-call trace of an analyze response (empty on the error
path, which performs its jsonify without further upstream work). -/
def callsOf : Res AnalyzeOut → List ℕ
  | .ok o => o.calls
  | .err _ => []

/-! ## Theorems for the claims -/

/-- The confidence formula exactly as the specification words it: base 50,
plus clamp(edge * 4) written with the clamp outermost, plus each adjustment
as an added term, the total clamped to the interval from 5 to 95 and
rounded to an integer. -/
def confidenceSpecC1 (edge : ℚ) (games : ℕ) (hitRate : ℚ)
    (last5Hits : ℕ) : ℤ :=
  pyRound (max 5 (min 95 (50 + max (-25) (min 25 (edge * 4))
    + (if 20 ≤ games then 10 else if games < 15 then -5 else 0)
    + (if 5 ≤ |edge| then 8 else 0)
    + (if 7 ≤ |edge| then 7 else 0)
    + (if 70 ≤ hitRate then 5 else if hitRate ≤ 30 then -5 else 0)
    + (if 4 ≤ last5Hits then 3 else if last5Hits ≤ 1 then -3 else 0))))

/-- The two clamp spellings agree. -/
lemma clamp_comm (x : ℚ) : min 25 (max (-25) x) = max (-25) (min 25 x) := by
  simp only [min_def, max_def]
  split_ifs <;> linarith

/-- An accumulation step with two branches becomes an added if-term. -/
lemma if_add2 (A : Prop) [Decidable A] (x a : ℚ) :
    (if A then x + a else x) = x + (if A then a else 0) := by
  split_ifs <;> ring

/-- An accumulation step with three branches becomes an added if-term. -/
lemma if_add3 (A B : Prop) [Decidable A] [Decidable B] (x a b : ℚ) :
    (if A then x + a else if B then x - b else x) =
      x + (if A then a else if B then -b else 0) := by
  split_ifs <;> ring

/-- The accumulated score equals the summed spec formula before rounding. -/
lemma confidenceScore_eq (e : ℚ) (g : ℕ) (h : ℚ) (l : ℕ) :
    confidenceScore e g h l =
      max 5 (min 95 (50 + max (-25) (min 25 (e * 4))
        + (if 20 ≤ g then 10 else if g < 15 then -5 else 0)
        + (if 5 ≤ |e| then 8 else 0)
        + (if 7 ≤ |e| then 7 else 0)
        + (if 70 ≤ h then 5 else if h ≤ 30 then -5 else 0)
        + (if 4 ≤ l then 3 else if l ≤ 1 then -3 else 0))) := by
  unfold confidenceScore
  rw [show (50 + min 25 (max (-25) (e * 4)))
      = 50 + max (-25) (min 25 (e * 4)) by rw [clamp_comm]]
  simp only [if_add2, if_add3]

/-- C1: for every analyzed prop, the integer confidence stored in
result_data is the pure deterministic weighted-adjustment function of the
derived inputs edge, games, hitRate and last5Hits exactly as the
specification states it: base 50, clamp(edge * 4, -25, 25), +10 when
games is at least 20 else -5 when below 15, +8 when the absolute edge is at
least 5 with a further +7 at 7, +5 or -5 on the hit rate at 70 and 30, +3
or -3 on the last-five hits at 4 and 1, clamped to the interval from 5 to
95 and rounded to an integer. -/
theorem confidence_is_spec_formula (fullName statS : String) (lineV : ℚ)
    (log : List GameRec) :
    (mkResultData fullName statS lineV log).confidence =
      confidenceSpecC1 (edgeOf (statMap (lowerStr statS)) lineV log)
        log.length
        (hitRateOf (statMap (lowerStr statS)) lineV log)
        (last5HitsOf (statMap (lowerStr statS)) lineV log) := by
  simp only [mkResultData, confidenceSpecC1]
  rw [confidenceScore_eq]

/-! ### C2: verdict assignment -/

/-- The stat column a request selects. -/
def colOf (p : PropReq) : StatCol := statMap (lowerStr (p.stat.getD "pts"))

/-- The unrounded clamped confidence the verdict thresholds compare. -/
def confRawOf (p : PropReq) (lineV : ℚ) (log : List GameRec) : ℚ :=
  confidenceScore (edgeOf (colOf p) lineV log) log.length
    (hitRateOf (colOf p) lineV log) (last5HitsOf (colOf p) lineV log)

/-- Direction as the specification words it: OVER on a positive edge,
UNDER otherwise. -/
def directionSpec (edge : ℚ) : String := if 0 < edge then "OVER" else "UNDER"

/-- Verdict as the amended claim words it: thresholds on the unrounded
clamped confidence, verdict strings carrying the emoji prefixes of the
source. -/
def verdictSpecC2 (conf : ℚ) (games : ℕ) (direction : String) : String :=
  if 85 ≤ conf ∧ 15 ≤ games then "🔒 LOCK " ++ direction
  else if 75 ≤ conf then "✅ GOOD " ++ direction
  else "SKIP"

/-- Lock-list membership as the amended claim words it. -/
def lockSpecC2 (conf : ℚ) (games : ℕ) (entry : LockEntry) : Option LockEntry :=
  if 85 ≤ conf ∧ 15 ≤ games then some entry else none

/-- The analyzed branch of processProp, written with the spec-side verdict
and lock functions: shared workhorse for the verdict claims. -/
lemma processProp_analyzed (injured : List String) (dirx : List NamedId)
    (fetch : ℕ → Res (List GameRec)) (p : PropReq) (lineV : ℚ) (pid : ℕ)
    (fullName : String) (log : List GameRec)
    (hline : parseLine p.line = .ok lineV)
    (hinj : injCond injured (p.name.getD "") = false)
    (hfind : findPlayer dirx (p.name.getD "") = some (pid, fullName))
    (hfetch : fetch pid = .ok log) (hne : log ≠ []) :
    processProp injured dirx fetch p =
      .ok ⟨.analyzed (mkResultData fullName (p.stat.getD "pts") lineV log)
            (verdictSpecC2 (confRawOf p lineV log) log.length
              (directionSpec (edgeOf (colOf p) lineV log))),
          lockSpecC2 (confRawOf p lineV log) log.length
            ⟨mkResultData fullName (p.stat.getD "pts") lineV log, lineV,
              p.stat.getD "pts", directionSpec (edgeOf (colOf p) lineV log)⟩,
          [pid]⟩ := by
  simp only [processProp, hline, hinj, hfind, hfetch, if_neg hne,
    verdictSpecC2, lockSpecC2, directionSpec, confRawOf, colOf,
    Bool.false_eq_true, if_false]
  split_ifs <;> rfl

/-- C2 (amended): for every analyzed prop reaching verdict assignment,
direction is OVER when edge is positive and UNDER otherwise; the LOCK and
GOOD thresholds (85 with at least 15 games, else 75) are evaluated on the
clamped but unrounded confidence value, before integer rounding; the lock
entry is appended exactly in the LOCK case; and the verdict strings carry
the emoji prefixes of the source. -/
theorem verdict_assignment (injured : List String) (dirx : List NamedId)
    (fetch : ℕ → Res (List GameRec)) (p : PropReq) (lineV : ℚ) (pid : ℕ)
    (fullName : String) (log : List GameRec)
    (hline : parseLine p.line = .ok lineV)
    (hinj : injCond injured (p.name.getD "") = false)
    (hfind : findPlayer dirx (p.name.getD "") = some (pid, fullName))
    (hfetch : fetch pid = .ok log) (hne : log ≠ []) :
    processProp injured dirx fetch p =
      .ok ⟨.analyzed (mkResultData fullName (p.stat.getD "pts") lineV log)
            (verdictSpecC2 (confRawOf p lineV log) log.length
              (directionSpec (edgeOf (colOf p) lineV log))),
          lockSpecC2 (confRawOf p lineV log) log.length
            ⟨mkResultData fullName (p.stat.getD "pts") lineV log, lineV,
              p.stat.getD "pts", directionSpec (edgeOf (colOf p) lineV log)⟩,
          [pid]⟩ :=
  processProp_analyzed injured dirx fetch p lineV pid fullName log
    hline hinj hfind hfetch hne

/-- The 20-game log of the concrete C2 input: average 14.1875 on a line of
10, hit rate exactly 70, five last-five hits, so the clamped confidence is
84.75, which rounds to the displayed integer 85. -/
def c2game (v : ℚ) : GameRec := ⟨v, 0, 0, 0, 0, 0, 0, "LAL vs. BOS"⟩

/-- Concrete 20-game log for the C2 input. -/
def c2log : List GameRec :=
  [c2game 20, c2game 20, c2game 20, c2game 20, c2game 20,
   c2game 15, c2game 15, c2game 15, c2game 15, c2game 15,
   c2game 15, c2game 15, c2game 15, c2game 15,
   c2game 10, c2game 10, c2game 10, c2game 10, c2game 8, c2game (3/4)]

/-- Concrete one-player directory. -/
def c2dir : List NamedId := [⟨1, "LeBron James"⟩]

/-- Concrete fetch oracle returning the 20-game log. -/
def c2fetch : ℕ → Res (List GameRec) := fun _ => .ok c2log

/-- Concrete prop request on the line 10. -/
def c2prop : PropReq := ⟨some "LeBron", .num 10, some "pts"⟩

/-- The concrete per-prop outcome the C2 theorems inspect. -/
def c2res : Res StepOut := processProp [] c2dir c2fetch c2prop

/-- Verdict string of an analyzed per-prop outcome. -/
def verdictOfStep : Res StepOut → Option String
  | .ok ⟨.analyzed _ v, _, _⟩ => some v
  | _ => none

/-- Displayed integer confidence of an analyzed per-prop outcome. -/
def confOfStep : Res StepOut → Option ℤ
  | .ok ⟨.analyzed d _, _, _⟩ => some d.confidence
  | _ => none

/-- Games count of an analyzed per-prop outcome. -/
def gamesOfStep : Res StepOut → Option ℕ
  | .ok ⟨.analyzed d _, _, _⟩ => some d.games
  | _ => none

/-- Lock entry of a per-prop outcome. -/
def lockOfStep : Res StepOut → Option (Option LockEntry)
  | .ok s => some s.lock
  | _ => none

/-- C2 counterexample: a prop whose displayed integer confidence is 85 with
20 games, which the claim says must be a lock with verdict LOCK OVER; the
code computes the thresholds on the unrounded value 84.75 and returns the
verdict string with an emoji prefix, so the prop gets verdict GOOD OVER and
no lock entry. -/
theorem verdict_assignment_counterexample :
    confOfStep c2res = some 85 ∧ gamesOfStep c2res = some 20 ∧
    verdictOfStep c2res = some "✅ GOOD OVER" ∧
    verdictOfStep c2res ≠ some "LOCK OVER" ∧
    lockOfStep c2res = some none := by
  have hfind : findPlayer c2dir "LeBron" = some (1, "LeBron James") := by
    with_unfolding_all decide
  have h := processProp_analyzed [] c2dir c2fetch c2prop 10 1 "LeBron James"
    c2log rfl rfl hfind rfl (by decide)
  have hstat : c2prop.stat.getD "pts" = "pts" := rfl
  have hlen : c2log.length = 20 := rfl
  have hconf : confRawOf c2prop 10 c2log = 339 / 4 := by
    with_unfolding_all decide
  have hedge : edgeOf (colOf c2prop) 10 c2log = 67 / 16 := by
    with_unfolding_all decide
  have hcf : (mkResultData "LeBron James" "pts" 10 c2log).confidence = 85 := by
    with_unfolding_all decide
  rw [hstat, hlen, hconf, hedge] at h
  have hdir : directionSpec (67 / 16) = "OVER" := by
    norm_num [directionSpec]
  have hv : verdictSpecC2 (339 / 4) 20 "OVER" = "✅ GOOD OVER" := by
    norm_num [verdictSpecC2]
    rfl
  have hlk : lockSpecC2 (339 / 4) 20
      ⟨mkResultData "LeBron James" "pts" 10 c2log, 10, "pts", "OVER"⟩ = none := by
    norm_num [lockSpecC2]
  rw [hdir, hv, hlk] at h
  have hres : c2res = .ok ⟨.analyzed
      (mkResultData "LeBron James" "pts" 10 c2log) "✅ GOOD OVER", none, [1]⟩ := by
    rw [show c2res = processProp [] c2dir c2fetch c2prop from rfl, h]
  refine ⟨?_, ?_, ?_, ?_, ?_⟩
  · simp only [hres, confOfStep, hcf]
  · simp only [hres, gamesOfStep, mkResultData, hlen]
  · simp only [hres, verdictOfStep]
  · simp only [hres, verdictOfStep]
    decide
  · simp only [hres, lockOfStep]

/-- Witness for the amended C2 theorem at the concrete 20-game input. -/
theorem verdict_assignment_witness :
    processProp [] c2dir c2fetch c2prop =
      .ok ⟨.analyzed (mkResultData "LeBron James" "pts" 10 c2log)
            (verdictSpecC2 (confRawOf c2prop 10 c2log) c2log.length
              (directionSpec (edgeOf (colOf c2prop) 10 c2log))),
          lockSpecC2 (confRawOf c2prop 10 c2log) c2log.length
            ⟨mkResultData "LeBron James" "pts" 10 c2log, 10, "pts",
              directionSpec (edgeOf (colOf c2prop) 10 c2log)⟩,
          [1]⟩ := by
  have hfind : findPlayer c2dir "LeBron" = some (1, "LeBron James") := by
    with_unfolding_all decide
  exact verdict_assignment [] c2dir c2fetch c2prop 10 1 "LeBron James"
    c2log rfl rfl hfind rfl (by decide)

/-! ### C5: the injury filter -/

/-- C5: for every prop in a batch whose lowercased name contains some
injured snapshot name or is contained in one (the snapshot stores
lowercased names, so the test is case-insensitive in both directions), the
per-prop outcome is the SKIP result with reason INJURED and an empty
upstream-call trace, and the outcome is independent of the player
directory and of the fetch oracle: no resolution and no upstream call
happens for that prop. -/
theorem injury_filter (injured : List String) (dir1 dir2 : List NamedId)
    (fetch1 fetch2 : ℕ → Res (List GameRec)) (p : PropReq) (lineV : ℚ)
    (hline : parseLine p.line = .ok lineV)
    (hmatch : ∃ inj ∈ injured,
      strSub (lowerStr (p.name.getD "")) inj = true ∨
      strSub inj (lowerStr (p.name.getD "")) = true) :
    processProp injured dir1 fetch1 p =
      .ok ⟨.injuredSkip (p.name.getD ""), none, []⟩ ∧
    processProp injured dir1 fetch1 p = processProp injured dir2 fetch2 p := by
  have hc : injCond injured (p.name.getD "") = true := by
    rcases hmatch with ⟨inj, hin, hor⟩
    unfold injCond
    rw [List.any_eq_true]
    refine ⟨inj, hin, ?_⟩
    rcases hor with h | h <;> simp [h]
  constructor <;> simp [processProp, hline, hc]

/-- Concrete prop request for the C5 witness, the worked example of the
specification: injured snapshot name lebron james, prop name LeBron James. -/
def c5prop : PropReq := ⟨some "LeBron James", .num 5, some "pts"⟩

/-- A fetch oracle that would return a one-game log. -/
def c5fetchA : ℕ → Res (List GameRec) := fun _ => .ok [c2game 20]

/-- A fetch oracle that would fail. -/
def c5fetchB : ℕ → Res (List GameRec) := fun _ => .err "down"

/-- A directory not containing the prop name. -/
def c5dirB : List NamedId := [⟨2, "Stephen Curry"⟩]

/-- Witness for C5 at the worked example of the specification. -/
theorem injury_filter_witness :
    processProp ["lebron james"] c2dir c5fetchA c5prop =
      .ok ⟨.injuredSkip "LeBron James", none, []⟩ ∧
    processProp ["lebron james"] c2dir c5fetchA c5prop =
      processProp ["lebron james"] c5dirB c5fetchB c5prop :=
  injury_filter ["lebron james"] c2dir c5dirB c5fetchA c5fetchB c5prop 5
    rfl ⟨"lebron james", by decide,
      Or.inl (by with_unfolding_all decide)⟩

/-! ### C6: batch truncation to the first 15 props -/

/-- Every processed prop contributes exactly one results entry. -/
lemma analyzeList_ok_length (injured : List String) (dirx : List NamedId)
    (fetch : ℕ → Res (List GameRec)) :
    ∀ ps rs ls cs, analyzeList injured dirx fetch ps = .ok (rs, ls, cs) →
      rs.length = ps.length := by
  intro ps
  induction ps with
  | nil =>
    intro rs ls cs h
    simp only [analyzeList, Res.ok.injEq, Prod.mk.injEq] at h
    rw [← h.1]
    rfl
  | cons p ps ih =>
    intro rs ls cs h
    unfold analyzeList at h
    cases hp : processProp injured dirx fetch p with
    | err e => rw [hp] at h; exact absurd h (by simp)
    | ok s =>
      rw [hp] at h
      cases hr : analyzeList injured dirx fetch ps with
      | err e => rw [hr] at h; exact absurd h (by simp)
      | ok t =>
        obtain ⟨rs2, ls2, cs2⟩ := t
        rw [hr] at h
        simp only [Res.ok.injEq, Prod.mk.injEq] at h
        rw [← h.1]
        simp [ih rs2 ls2 cs2 hr]

/-- C6: an analysis batch only ever processes its first 15 props: the whole
analyze outcome (results, locks, upstream-call trace, error or not) equals
the outcome on the truncated batch, so props beyond position 15 contribute
no results entry, no locks entry and no upstream call; and on the success
path the results list has exactly min(n, 15) entries, one per processed
prop. -/
theorem batch_truncation (dirx : List NamedId)
    (fetch : ℕ → Res (List GameRec)) (st : CacheState)
    (props : List PropReq) :
    analyzeProps dirx fetch st props =
      analyzeProps dirx fetch st (props.take 15) ∧
    ∀ out, analyzeProps dirx fetch st props = .ok out →
      out.results.length = min props.length 15 := by
  constructor
  · simp [analyzeProps, List.take_take]
  · intro out hout
    simp only [analyzeProps] at hout
    cases h : analyzeList st.injuries.data.injuredPlayers dirx fetch
        (props.take 15) with
    | err e => rw [h] at hout; exact absurd hout (by simp)
    | ok t =>
      obtain ⟨rs, ls, cs⟩ := t
      rw [h] at hout
      simp only [Res.ok.injEq] at hout
      have hlen := analyzeList_ok_length st.injuries.data.injuredPlayers
        dirx fetch (props.take 15) rs ls cs h
      rw [← hout]
      simpa [List.length_take, Nat.min_comm] using hlen

/-- A batch of 16 identical unresolvable props. -/
def c6props : List PropReq := List.replicate 16 ⟨some "zz", .num 1, none⟩

/-- The analyze outcome on that batch: 15 not-found entries. -/
def c6out : AnalyzeOut :=
  ⟨List.replicate 15 (.notFound "zz"), [], 0, 0, "loading...", []⟩

/-- Witness for C6 on a batch of 16 props: the outcome equals the outcome
of the 15-prop truncation and carries exactly min(16, 15) = 15 results. -/
theorem batch_truncation_witness :
    (analyzeProps [] c5fetchB initialCache c6props =
      analyzeProps [] c5fetchB initialCache (c6props.take 15)) ∧
    c6out.results.length = min c6props.length 15 :=
  ⟨(batch_truncation [] c5fetchB initialCache c6props).1,
   (batch_truncation [] c5fetchB initialCache c6props).2 c6out
     (by with_unfolding_all decide)⟩

/-! ### C7: per-prop failure isolation and output ordering -/

/-- Total per-prop outcome, defined whenever the line converts (the only
per-prop step whose failure escapes the per-prop handler). -/
def processPropOk (injured : List String) (dirx : List NamedId)
    (fetch : ℕ → Res (List GameRec)) (p : PropReq) : StepOut :=
  match processProp injured dirx fetch p with
  | .ok s => s
  | .err e => ⟨.errSkip (p.name.getD "") (strTake 50 e), none, []⟩

/-- With a convertible line, the per-prop handler absorbs every failure. -/
lemma processProp_ne_err (injured : List String) (dirx : List NamedId)
    (fetch : ℕ → Res (List GameRec)) (p : PropReq)
    (hp : lineOk p = true) :
    ∀ e, processProp injured dirx fetch p ≠ .err e := by
  unfold lineOk at hp
  intro e
  unfold processProp
  cases hl : parseLine p.line with
  | err m => rw [hl] at hp; exact absurd hp (by simp)
  | ok lineV =>
    simp only [hl]
    split
    · simp
    · split
      · simp
      · split
        · simp
        · split
          · simp
          · split_ifs <;> simp

/-- With a convertible line, processProp succeeds with the total outcome. -/
lemma processProp_ok_of_lineOk (injured : List String) (dirx : List NamedId)
    (fetch : ℕ → Res (List GameRec)) (p : PropReq)
    (hp : lineOk p = true) :
    processProp injured dirx fetch p =
      .ok (processPropOk injured dirx fetch p) := by
  unfold processPropOk
  cases h : processProp injured dirx fetch p with
  | ok s => rfl
  | err e => exact absurd h (processProp_ne_err injured dirx fetch p hp e)

/-- When every line in the batch converts, the per-prop loop is exactly a
map for results, a filterMap for locks and a flat map for upstream calls,
in input order. -/
lemma analyzeList_eq_map (injured : List String) (dirx : List NamedId)
    (fetch : ℕ → Res (List GameRec)) :
    ∀ ps, (∀ p ∈ ps, lineOk p = true) →
      analyzeList injured dirx fetch ps =
        .ok (ps.map (fun p => (processPropOk injured dirx fetch p).res),
          ps.filterMap (fun p => (processPropOk injured dirx fetch p).lock),
          ps.flatMap (fun p => (processPropOk injured dirx fetch p).calls)) := by
  intro ps
  induction ps with
  | nil => intro _; rfl
  | cons p ps ih =>
    intro hall
    have hp := hall p (by simp)
    have hps : ∀ q ∈ ps, lineOk q = true := fun q hq => hall q (by simp [hq])
    unfold analyzeList
    rw [processProp_ok_of_lineOk injured dirx fetch p hp, ih hps]
    simp only [List.map_cons, List.filterMap_cons, List.flatMap_cons]
    cases hlk : (processPropOk injured dirx fetch p).lock <;> simp [hlk]

/-- C7: when the per-prop loop runs to completion (every line converts),
the results list is exactly the input-ordered map of the total per-prop
outcome over the first 15 props — so one prop never perturbs another, and
skipped, injured and not-found entries keep their positions — the locks
list is the filterMap of the per-prop lock entries in discovery order
(hence a subsequence of the processed props), and a prop whose upstream
fetch raises yields the SKIP entry carrying its error text truncated to 50
characters. -/
theorem batch_failure_isolation (dirx : List NamedId)
    (fetch : ℕ → Res (List GameRec)) (st : CacheState)
    (props : List PropReq)
    (hall : ∀ p ∈ props.take 15, lineOk p = true) :
    analyzeProps dirx fetch st props =
      .ok { results := (props.take 15).map (fun p =>
              (processPropOk st.injuries.data.injuredPlayers dirx fetch p).res)
            locks := (props.take 15).filterMap (fun p =>
              (processPropOk st.injuries.data.injuredPlayers dirx fetch p).lock)
            lockCount := ((props.take 15).filterMap (fun p =>
              (processPropOk st.injuries.data.injuredPlayers dirx fetch p).lock)).length
            injuriesChecked := st.injuries.data.injuredPlayers.length
            injurySource := st.injuries.source
            calls := (props.take 15).flatMap (fun p =>
              (processPropOk st.injuries.data.injuredPlayers dirx fetch p).calls) } ∧
    (∀ p lineV pid fullName e, parseLine p.line = .ok lineV →
      injCond st.injuries.data.injuredPlayers (p.name.getD "") = false →
      findPlayer dirx (p.name.getD "") = some (pid, fullName) →
      fetch pid = .err e →
      processPropOk st.injuries.data.injuredPlayers dirx fetch p =
        ⟨.errSkip (p.name.getD "") (strTake 50 e), none, [pid]⟩) := by
  constructor
  · simp only [analyzeProps]
    rw [analyzeList_eq_map st.injuries.data.injuredPlayers dirx fetch
      (props.take 15) hall]
  · intro p lineV pid fullName e hline hinj hfind hfetch
    unfold processPropOk
    simp [processProp, hline, hinj, hfind, hfetch]

/-- A 60-character upstream error message, to exercise the truncation. -/
def c7err : String :=
  "123456789012345678901234567890123456789012345678901234567890"

/-- A fetch oracle that always raises that message. -/
def c7fetch : ℕ → Res (List GameRec) := fun _ => .err c7err

/-- The concrete prop of the C7 witness. -/
def c7prop1 : PropReq := ⟨some "LeBron", .num 5, some "pts"⟩

/-- The concrete one-prop batch of the C7 witness. -/
def c7props : List PropReq := [c7prop1]

/-- Witness for C7: a batch whose single prop fails its upstream fetch
still returns the mapped results, and the failing prop carries the SKIP
entry with the 60-character error truncated to 50 characters. -/
theorem batch_failure_isolation_witness :
    analyzeProps c2dir c7fetch initialCache c7props =
      .ok { results := (c7props.take 15).map (fun p =>
              (processPropOk initialCache.injuries.data.injuredPlayers
                c2dir c7fetch p).res)
            locks := (c7props.take 15).filterMap (fun p =>
              (processPropOk initialCache.injuries.data.injuredPlayers
                c2dir c7fetch p).lock)
            lockCount := ((c7props.take 15).filterMap (fun p =>
              (processPropOk initialCache.injuries.data.injuredPlayers
                c2dir c7fetch p).lock)).length
            injuriesChecked :=
              initialCache.injuries.data.injuredPlayers.length
            injurySource := initialCache.injuries.source
            calls := (c7props.take 15).flatMap (fun p =>
              (processPropOk initialCache.injuries.data.injuredPlayers
                c2dir c7fetch p).calls) } ∧
    processPropOk initialCache.injuries.data.injuredPlayers c2dir c7fetch
        c7prop1 =
      ⟨.errSkip "LeBron" (strTake 50 c7err), none, [1]⟩ := by
  have h := batch_failure_isolation c2dir c7fetch initialCache c7props
    (by decide)
  exact ⟨h.1, h.2 c7prop1 5 1 "LeBron James" c7err rfl rfl
    (by with_unfolding_all decide) rfl⟩

/-! ### C10: a failing line conversion aborts the whole batch -/

/-- A bad line reached after convertible lines aborts the per-prop loop
with its conversion message. -/
lemma analyzeList_err_of_bad (injured : List String) (dirx : List NamedId)
    (fetch : ℕ → Res (List GameRec)) :
    ∀ ps1 (p : PropReq) ps2 m, (∀ q ∈ ps1, lineOk q = true) →
      parseLine p.line = .err m →
      analyzeList injured dirx fetch (ps1 ++ p :: ps2) = .err m := by
  intro ps1
  induction ps1 with
  | nil =>
    intro p ps2 m _ hbad
    simp [analyzeList, processProp, hbad]
  | cons q qs ih =>
    intro p ps2 m hall hbad
    have hq := hall q (by simp)
    have hqs : ∀ r ∈ qs, lineOk r = true := fun r hr => hall r (by simp [hr])
    rw [List.cons_append]
    unfold analyzeList
    rw [processProp_ok_of_lineOk injured dirx fetch q hq,
      ih p ps2 m hqs hbad]

/-- C10: when a prop among the first 15 that the loop reaches (all earlier
props in the truncated batch having convertible lines) carries a line field
whose float conversion raises, the failure escapes the per-prop handler and
the whole analyze call collapses to the single error object, discarding
every result and lock already computed for earlier props. -/
theorem line_error_aborts (dirx : List NamedId)
    (fetch : ℕ → Res (List GameRec)) (st : CacheState)
    (ps1 : List PropReq) (p : PropReq) (ps2 : List PropReq) (m : String)
    (hlen : ps1.length < 15)
    (hall : ∀ q ∈ ps1, lineOk q = true)
    (hbad : parseLine p.line = .err m) :
    analyzeProps dirx fetch st (ps1 ++ p :: ps2) = .err m := by
  simp only [analyzeProps]
  obtain ⟨k, hk⟩ : ∃ k, 15 - ps1.length = k + 1 := by
    refine ⟨14 - ps1.length, ?_⟩
    omega
  rw [List.take_append_eq_append_take,
    List.take_of_length_le (le_of_lt hlen), hk, List.take_succ_cons,
    analyzeList_err_of_bad st.injuries.data.injuredPlayers dirx fetch
      ps1 p (ps2.take k) m hall hbad]

/-- The bad prop of the C10 witness: a line that raises on conversion. -/
def c10bad : PropReq := ⟨some "X", .malformed "boom", none⟩

/-- Witness for C10: a two-prop batch whose second prop has an
unconvertible line yields the single error object. -/
theorem line_error_aborts_witness :
    analyzeProps c2dir c5fetchA initialCache [c7prop1, c10bad] =
      .err "boom" :=
  line_error_aborts c2dir c5fetchA initialCache [c7prop1] c10bad [] "boom"
    (by decide) (by decide) rfl

/-! ### C3: failing push refresh after a prior success -/

/-- Running a trace splits over append. -/
lemma runRefresh_append (tr1 tr2 : List RefreshEvent) :
    ∀ s, runRefresh s (tr1 ++ tr2) = runRefresh (runRefresh s tr1) tr2 := by
  induction tr1 with
  | nil => intro s; rfl
  | cons e es ih => intro s; rw [List.cons_append]; exact ih (stepRefresh s e)

/-- Once the injuries entry has a timestamp, every later state has one:
a successful cycle in the trace guarantees a non-null timestamp. -/
lemma runRefresh_updated_ne (tr : List RefreshEvent) :
    ∀ s, (hasInjOk tr = true ∨ s.injuries.updated ≠ none) →
      (runRefresh s tr).injuries.updated ≠ none := by
  induction tr with
  | nil =>
    intro s h
    rcases h with h | h
    · exact absurd h (by simp [hasInjOk])
    · exact h
  | cons e es ih =>
    intro s h
    unfold runRefresh
    apply ih
    cases e with
    | injOk a b t => right; simp [stepRefresh]
    | injFail msg t =>
      by_cases hu : s.injuries.updated = none
      · right; simp [stepRefresh, hu]
      · right; simp [stepRefresh, hu]
    | injNon200 c =>
      rcases h with h | h
      · left; simpa [hasInjOk] using h
      · right; simpa [stepRefresh] using h
    | gamesOk rows d t =>
      rcases h with h | h
      · left; simpa [hasInjOk] using h
      · right; simpa [stepRefresh] using h
    | gamesFail msg =>
      rcases h with h | h
      · left; simpa [hasInjOk] using h
      · right; simpa [stepRefresh] using h

/-- C3 (amended): a push-refresh failure after at least one prior
successful cycle leaves the cached entry entirely unchanged: value,
timestamp and also the source label, which keeps describing the stale
success rather than the failure; a games refresh failure never changes any
cache state at all.  (The error is recorded in source only by an injuries
failure that happens before any success.) -/
theorem stale_entry_frozen :
    (∀ s e t, s.injuries.updated ≠ none →
      stepRefresh s (.injFail e t) = s) ∧
    (∀ s e, stepRefresh s (.gamesFail e) = s) ∧
    (∀ tr, hasInjOk tr = true →
      (runRefresh initialCache tr).injuries.updated ≠ none) ∧
    (∀ tr e t, hasInjOk tr = true →
      runRefresh initialCache (tr ++ [.injFail e t]) =
        runRefresh initialCache tr) := by
  have hfail : ∀ (s : CacheState) e t, s.injuries.updated ≠ none →
      stepRefresh s (.injFail e t) = s := by
    intro s e t h
    simp [stepRefresh, h]
  refine ⟨hfail, fun s e => rfl, ?_, ?_⟩
  · intro tr h
    exact runRefresh_updated_ne tr initialCache (Or.inl h)
  · intro tr e t h
    rw [runRefresh_append]
    exact hfail (runRefresh initialCache tr) e t
      (runRefresh_updated_ne tr initialCache (Or.inl h))

/-- The one-success trace of the C3 concrete input. -/
def c3trace : List RefreshEvent := [.injOk [] ["lebron james"] 1]

/-- C3 counterexample: after a successful injuries cycle, a failing cycle
changes nothing — in particular the source label still reads the live
upstream name and does not reflect the failure, contradicting the claim
that only the source field is updated to reflect it. -/
theorem stale_entry_frozen_counterexample :
    runRefresh initialCache (c3trace ++ [.injFail "boom" 2]) =
      runRefresh initialCache c3trace ∧
    (runRefresh initialCache
        (c3trace ++ [.injFail "boom" 2])).injuries.source =
      "ESPN NBA Injuries (Live)" ∧
    (runRefresh initialCache
        (c3trace ++ [.injFail "boom" 2])).injuries.source ≠
      "ESPN API error: boom" := by
  with_unfolding_all decide

/-- Witness for the amended C3 theorem on the one-success trace. -/
theorem stale_entry_frozen_witness :
    stepRefresh (runRefresh initialCache c3trace) (.injFail "x" 9) =
      runRefresh initialCache c3trace ∧
    stepRefresh initialCache (.gamesFail "x") = initialCache ∧
    (runRefresh initialCache c3trace).injuries.updated ≠ none ∧
    runRefresh initialCache (c3trace ++ [.injFail "x" 9]) =
      runRefresh initialCache c3trace :=
  ⟨stale_entry_frozen.1 (runRefresh initialCache c3trace) "x" 9
      (by with_unfolding_all decide),
   stale_entry_frozen.2.1 initialCache "x",
   stale_entry_frozen.2.2.1 c3trace (by decide),
   stale_entry_frozen.2.2.2 c3trace "x" 9 (by decide)⟩

/-! ### C8: when the updated timestamp is null -/

/-- The games timestamp is null iff it started null and no successful
games cycle ran. -/
lemma runRefresh_games_none (tr : List RefreshEvent) :
    ∀ s, (runRefresh s tr).games.updated = none ↔
      (s.games.updated = none ∧ hasGamesOk tr = false) := by
  induction tr with
  | nil => intro s; simp [runRefresh, hasGamesOk]
  | cons e es ih =>
    intro s
    unfold runRefresh
    rw [ih]
    cases e with
    | gamesOk rows d t => simp [stepRefresh, hasGamesOk]
    | gamesFail msg => simp [stepRefresh, hasGamesOk]
    | injOk a b t => simp [stepRefresh, hasGamesOk]
    | injNon200 c => simp [stepRefresh, hasGamesOk]
    | injFail msg t =>
      by_cases hu : s.injuries.updated = none <;>
        simp [stepRefresh, hu, hasGamesOk]

/-- The injuries timestamp is null iff it started null and no injuries
cycle completed, successfully or not. -/
lemma runRefresh_inj_none (tr : List RefreshEvent) :
    ∀ s, (runRefresh s tr).injuries.updated = none ↔
      (s.injuries.updated = none ∧ hasInjAttempt tr = false) := by
  induction tr with
  | nil => intro s; simp [runRefresh, hasInjAttempt]
  | cons e es ih =>
    intro s
    unfold runRefresh
    rw [ih]
    cases e with
    | gamesOk rows d t => simp [stepRefresh, hasInjAttempt]
    | gamesFail msg => simp [stepRefresh, hasInjAttempt]
    | injOk a b t => simp [stepRefresh, hasInjAttempt]
    | injNon200 c => simp [stepRefresh, hasInjAttempt]
    | injFail msg t =>
      by_cases hu : s.injuries.updated = none <;>
        simp [stepRefresh, hu, hasInjAttempt]

/-- C8 (amended): for the games entry, the updated timestamp is null
exactly when no successful games refresh has run.  For the injuries entry,
the timestamp is null exactly when no injuries refresh cycle has completed
at all: a first failing cycle also sets a non-null timestamp (recording
the error in source), so a null timestamp means no completed attempt, not
merely no success. -/
theorem fetchedAt_semantics (tr : List RefreshEvent) :
    ((runRefresh initialCache tr).games.updated = none ↔
      hasGamesOk tr = false) ∧
    ((runRefresh initialCache tr).injuries.updated = none ↔
      hasInjAttempt tr = false) := by
  constructor
  · rw [runRefresh_games_none tr initialCache]
    simp [initialCache]
  · rw [runRefresh_inj_none tr initialCache]
    simp [initialCache]

/-- C8 counterexample: a single failing injuries cycle, with no success in
the trace, sets a non-null timestamp (and records the error in source),
contradicting the claim that the timestamp is null unless the entry was
successfully populated. -/
theorem fetchedAt_semantics_counterexample :
    hasInjOk [RefreshEvent.injFail "x" 5] = false ∧
    (runRefresh initialCache [.injFail "x" 5]).injuries.updated = some 5 ∧
    (runRefresh initialCache [.injFail "x" 5]).injuries.source =
      "ESPN API error: x" := by
  with_unfolding_all decide

/-! ### C9: readers always see one complete refresh generation.

In the source every cache write replaces the whole entry dictionary inside
a lock-guarded critical section, and every reader copies the entry inside
the same lock, so thread interleavings can only switch at critical-section
granularity; the transition system above models exactly that granularity,
and the claim becomes: after any interleaving of refresh cycles, the entry
a reader copies is one that a single write installed in full (or the
initial entry), never a mix of fields from two generations. -/

/-- One refresh step either leaves the injuries entry alone or installs
exactly the generation its event determines. -/
lemma step_inj_cases (s : CacheState) (e : RefreshEvent) :
    (stepRefresh s e).injuries = s.injuries ∨
      injGen e = some (stepRefresh s e).injuries := by
  cases e with
  | injOk a b t => right; simp [stepRefresh, injGen]
  | injFail msg t =>
    by_cases hu : s.injuries.updated = none
    · right; simp [stepRefresh, injGen, hu]
    · left; simp [stepRefresh, hu]
  | injNon200 c => left; rfl
  | gamesOk rows d t => left; rfl
  | gamesFail msg => left; rfl

/-- One refresh step either leaves the games entry alone or installs
exactly the generation its event determines. -/
lemma step_games_cases (s : CacheState) (e : RefreshEvent) :
    (stepRefresh s e).games = s.games ∨
      gamesGen e = some (stepRefresh s e).games := by
  cases e with
  | gamesOk rows d t => right; simp [stepRefresh, gamesGen]
  | gamesFail msg => left; rfl
  | injOk a b t => left; rfl
  | injNon200 c => left; rfl
  | injFail msg t =>
    by_cases hu : s.injuries.updated = none <;> simp [stepRefresh, hu]

/-- After any trace, the injuries entry is the starting entry or one a
single event installed. -/
lemma runRefresh_inj_mem (tr : List RefreshEvent) :
    ∀ s, (runRefresh s tr).injuries ∈
      s.injuries :: tr.filterMap injGen := by
  induction tr with
  | nil => intro s; exact List.mem_cons_self _ _
  | cons e es ih =>
    intro s
    have h := ih (stepRefresh s e)
    rw [show runRefresh s (e :: es) = runRefresh (stepRefresh s e) es
      from rfl, List.filterMap_cons]
    cases hg : injGen e with
    | none =>
      rcases step_inj_cases s e with hc | hc
      · rw [hc] at h; exact h
      · rw [hg] at hc; exact absurd hc (by simp)
    | some g =>
      rcases List.mem_cons.1 h with h1 | h1
      · rcases step_inj_cases s e with hc | hc
        · rw [h1, hc]; exact List.mem_cons_self _ _
        · rw [hg] at hc
          rw [h1, ← Option.some.inj hc]
          exact List.mem_cons_of_mem _ (List.mem_cons_self _ _)
      · exact List.mem_cons_of_mem _ (List.mem_cons_of_mem _ h1)

/-- After any trace, the games entry is the starting entry or one a
single event installed. -/
lemma runRefresh_games_mem (tr : List RefreshEvent) :
    ∀ s, (runRefresh s tr).games ∈
      s.games :: tr.filterMap gamesGen := by
  induction tr with
  | nil => intro s; exact List.mem_cons_self _ _
  | cons e es ih =>
    intro s
    have h := ih (stepRefresh s e)
    rw [show runRefresh s (e :: es) = runRefresh (stepRefresh s e) es
      from rfl, List.filterMap_cons]
    cases hg : gamesGen e with
    | none =>
      rcases step_games_cases s e with hc | hc
      · rw [hc] at h; exact h
      · rw [hg] at hc; exact absurd hc (by simp)
    | some g =>
      rcases List.mem_cons.1 h with h1 | h1
      · rcases step_games_cases s e with hc | hc
        · rw [h1, hc]; exact List.mem_cons_self _ _
        · rw [hg] at hc
          rw [h1, ← Option.some.inj hc]
          exact List.mem_cons_of_mem _ (List.mem_cons_self _ _)
      · exact List.mem_cons_of_mem _ (List.mem_cons_of_mem _ h1)

/-- C9: for every interleaving of refresh cycles (each lock-guarded
critical section taken as one atomic step, which is what the shared lock
enforces in the source), the entry a reader copies — value, updated
timestamp and source label together — is the initial entry or exactly the
entry some single refresh write installed: readers never observe a torn or
mixed-generation entry, for the injuries category and the games category
alike. -/
theorem cache_read_single_generation (tr : List RefreshEvent) :
    getInjuriesView (runRefresh initialCache tr) ∈
      initialCache.injuries :: tr.filterMap injGen ∧
    getGamesView (runRefresh initialCache tr) ∈
      initialCache.games :: tr.filterMap gamesGen :=
  ⟨runRefresh_inj_mem tr initialCache, runRefresh_games_mem tr initialCache⟩

/-! ### C4: the TTL pull path -/

/-- No usable cache entry: the player id is absent, or its entry has aged
past the TTL. -/
def staleOrMissing (st : CacheState) (pid : ℕ) (now : ℚ) : Prop :=
  ∀ en, st.players.lookup pid = some en →
    ¬(now - en.timestamp < PLAYER_CACHE_TTL)

/-- C4 (amended): the player-stats query follows the TTL discipline — a
fresh entry is returned with no upstream call; a missing or expired entry
triggers the fetch tail, which always performs exactly one upstream call,
surfaces a fetch failure unchanged with the cache untouched and no stale
fallback, and stores a successful nonempty result under the read
timestamp.  The Analysis Engine, however, does not use the player cache at
all: its outcome depends only on the injuries entry of the cache state,
and every resolved non-injured prop performs exactly one upstream fetch
regardless of any cached log. -/
theorem pull_path_ttl (dirx : List NamedId)
    (fetch : ℕ → Res (List GameRec)) :
    (∀ now st name pid fullName en,
      findPlayer dirx name = some (pid, fullName) →
      st.players.lookup pid = some en →
      now - en.timestamp < PLAYER_CACHE_TTL →
      getPlayer dirx fetch now st name = ⟨.ok en.data, st, []⟩) ∧
    (∀ now st name pid fullName,
      findPlayer dirx name = some (pid, fullName) →
      staleOrMissing st pid now →
      getPlayer dirx fetch now st name =
        getPlayerFetch fetch now st pid fullName) ∧
    (∀ now st pid fullName,
      (getPlayerFetch fetch now st pid fullName).calls = [pid]) ∧
    (∀ now st pid fullName e, fetch pid = .err e →
      getPlayerFetch fetch now st pid fullName = ⟨.err e, st, [pid]⟩) ∧
    (∀ now st pid fullName log, fetch pid = .ok log → log ≠ [] →
      getPlayerFetch fetch now st pid fullName =
        ⟨.ok (summarize fullName now log),
          { st with players :=
              (pid, ⟨summarize fullName now log, now⟩) :: st.players },
          [pid]⟩) ∧
    (∀ st1 st2 props, st1.injuries = st2.injuries →
      analyzeProps dirx fetch st1 props = analyzeProps dirx fetch st2 props) ∧
    (∀ injured p lineV pid fullName,
      parseLine p.line = .ok lineV →
      injCond injured (p.name.getD "") = false →
      findPlayer dirx (p.name.getD "") = some (pid, fullName) →
      (processPropOk injured dirx fetch p).calls = [pid]) := by
  refine ⟨?_, ?_, ?_, ?_, ?_, ?_, ?_⟩
  · intro now st name pid fullName en hfind hlook hfresh
    simp [getPlayer, hfind, hlook, hfresh]
  · intro now st name pid fullName hfind hstale
    simp only [getPlayer, hfind]
    cases hlook : st.players.lookup pid with
    | none => rfl
    | some en => simp [hstale en hlook]
  · intro now st pid fullName
    unfold getPlayerFetch
    cases hf : fetch pid with
    | err e => rfl
    | ok log => by_cases hne : log = [] <;> simp [hne]
  · intro now st pid fullName e hf
    simp [getPlayerFetch, hf]
  · intro now st pid fullName log hf hne
    simp [getPlayerFetch, hf, hne]
  · intro st1 st2 props h
    simp only [analyzeProps, h]
  · intro injured p lineV pid fullName hline hinj hfind
    unfold processPropOk
    simp only [processProp, hline, hinj, hfind, Bool.false_eq_true,
      if_false]
    cases hf : fetch pid with
    | err e => simp [hf]
    | ok log =>
      by_cases hne : log = []
      · simp [hf, hne]
      · simp only [hf, hne, if_false]
        split_ifs <;> rfl

/-- The cached summary of the C4 concrete input. -/
def c4data : PlayerSummary := ⟨"LeBron James", 1, 20, 0, 0, 0, 0, 0, 300⟩

/-- A cache state holding a fresh player entry for id 1, stamped at 0. -/
def c4st : CacheState :=
  { initialCache with players := [(1, ⟨c4data, 0⟩)] }

/-- C4 counterexample: at the same read time 0 the pull path returns the
fresh cached entry for player 1 with no upstream call, yet the Analysis
Engine, resolving its prop to the same player id 1, still performs an
upstream fetch — the claim that the analysis log retrieval returns the
fresh cached value with no upstream call is false on the code. -/
theorem pull_path_ttl_counterexample :
    c4st.players.lookup 1 = some ⟨c4data, 0⟩ ∧
    ((0 : ℚ) - 0 < PLAYER_CACHE_TTL) ∧
    getPlayer c2dir c5fetchA 0 c4st "LeBron" = ⟨.ok c4data, c4st, []⟩ ∧
    callsOf (analyzeProps c2dir c5fetchA c4st [c7prop1]) = [1] := by
  with_unfolding_all decide

/-- Witness for the amended C4 theorem: the fresh hit, the surfaced fetch
failure with unchanged state, the stored success, and the one fetch of a
resolved analysis prop. -/
theorem pull_path_ttl_witness :
    getPlayer c2dir c5fetchB 0 c4st "LeBron" = ⟨.ok c4data, c4st, []⟩ ∧
    getPlayerFetch c5fetchB 0 initialCache 1 "LeBron James" =
      ⟨.err "down", initialCache, [1]⟩ ∧
    getPlayerFetch c5fetchA 0 initialCache 1 "LeBron James" =
      ⟨.ok (summarize "LeBron James" 0 [c2game 20]),
        { initialCache with players :=
            [(1, ⟨summarize "LeBron James" 0 [c2game 20], 0⟩)] },
        [1]⟩ ∧
    (processPropOk [] c2dir c5fetchB c7prop1).calls = [1] :=
  ⟨(pull_path_ttl c2dir c5fetchB).1 0 c4st "LeBron" 1 "LeBron James"
      ⟨c4data, 0⟩ (by with_unfolding_all decide)
      (by with_unfolding_all decide) (by with_unfolding_all decide),
   (pull_path_ttl c2dir c5fetchB).2.2.2.1 0 initialCache 1
      "LeBron James" "down" rfl,
   (pull_path_ttl c2dir c5fetchA).2.2.2.2.1 0 initialCache 1
      "LeBron James" [c2game 20] rfl (by decide),
   (pull_path_ttl c2dir c5fetchB).2.2.2.2.2.2 [] c7prop1 5 1
      "LeBron James" rfl rfl (by with_unfolding_all decide)⟩

end NbaProps
